import Mathlib

/-!
Verification of the grok filter subsystem
(src/lib/datadog/grok/src/grok_filter.rs).

The development shallowly embeds the two entry points of the file:

* `GrokFilter::try_from(&Function)` (the filter compiler) as `tryFrom`;
* `apply_filter(value, filter)` (the application engine) as `applyFilter`.

Rust panics (out-of-bounds indexing, `Option::unwrap` on `None`,
`Result::expect` on `Err`) are modelled by an outer `Option` layer on the
result of each embedded fallible function: `none` means the Rust code
panics, `some r` means it returns `r` (an `Except` carrying the error
taxonomy of the source).

64-bit floats are idealized: a float is NaN, a signed infinity, or an
exact rational. This keeps exactly the structure the source manipulates
(NaN checks of `NotNan::new`, the saturating `as i64` cast) while staying
away from bit-level rounding, which no statement below depends on.

Byte strings (`bytes::Bytes` in the source) are modelled as `String`:
every consumer in the source immediately goes through
`String::from_utf8_lossy`, so the model assumes well-formed UTF-8 input
and lossy decoding becomes the identity. Rust `String::len` is byte
length, which the model renders as `String.utf8ByteSize`.
-/

/-- Idealized 64-bit float: NaN, a signed infinity, or an exact finite
rational. Rounding and signed zero are not modelled; no claim below
depends on them. -/
inductive F64 where
  | nan
  | inf (neg : Bool)
  | finite (q : ℚ)
  deriving DecidableEq

/-- Multiplication of idealized floats. NaN is produced exactly when an
operand is NaN or when zero is multiplied with an infinity; the product
of two finite operands is finite. -/
def fmul : F64 → F64 → F64
  | .nan, _ => .nan
  | .inf _, .nan => .nan
  | .finite _, .nan => .nan
  | .inf s1, .inf s2 => .inf (Bool.xor s1 s2)
  | .inf s1, .finite q => if q = 0 then .nan else .inf (Bool.xor s1 (decide (q < 0)))
  | .finite q, .inf s2 => if q = 0 then .nan else .inf (Bool.xor (decide (q < 0)) s2)
  | .finite a, .finite b => .finite (a * b)

/-- Embedding of `ordered_float::NotNan::new`: succeeds exactly on
non-NaN inputs. The source always follows it with `.expect("NaN")`,
which the callers below model as a panic on `none`. -/
def notNanNew : F64 → Option F64
  | .nan => none
  | .inf s => some (.inf s)
  | .finite q => some (.finite q)

/-- Embedding of the `scale_factor as f64` cast on an `i64` literal
(exact in the idealized model). -/
def intToF64 (n : Int) : F64 := .finite (n : ℚ)

/-- Truncation of a rational toward zero, the rounding used by the Rust
`f64 as i64` cast on finite values. -/
def ratTrunc (q : ℚ) : Int := if q < 0 then -((-q).floor) else q.floor

/-- Embedding of the saturating Rust cast `f as i64`: NaN goes to 0,
infinities and finite values out of range saturate to the corresponding
signed 64-bit bound, finite values in range truncate toward zero. -/
def f64toI64 : F64 → Int
  | .nan => 0
  | .inf neg => if neg then -(2 ^ 63) else 2 ^ 63 - 1
  | .finite q =>
    if 2 ^ 63 - 1 < ratTrunc q then 2 ^ 63 - 1
    else if ratTrunc q < -(2 ^ 63) then -(2 ^ 63)
    else ratTrunc q

/-- Modelled from the spec: a textual rendering of an idealized float,
used only inside `valueDisplay`. No claim depends on the exact text. -/
def f64Display : F64 → String
  | .nan => "NaN"
  | .inf neg => if neg then "-inf" else "inf"
  | .finite q => toString q

/-- The runtime value union (`vrl_compiler::Value` restricted to the
variants the filter subsystem produces or inspects). -/
inductive Value where
  | Null
  | Bytes (s : String)
  | Integer (n : Int)
  | Float (f : F64)
  | Boolean (b : Bool)
  | Array (l : List Value)
  | Map (entries : List (String × Value))

/-- Modelled from the spec: the textual rendering of a runtime value
(the external `Display` impl of `vrl_compiler::Value`) that runtime
failures carry. The spec fixes only that a rendering is attached, not
its format; composite values are abbreviated. No claim depends on the
exact text. -/
def valueDisplay : Value → String
  | .Null => "null"
  | .Bytes s => s
  | .Integer n => toString n
  | .Float f => f64Display f
  | .Boolean b => toString b
  | .Array _ => "array"
  | .Map _ => "map"

/-- Compile-time error taxonomy (`parse_grok_rules::Error` as used by
this file). -/
inductive GrokStaticError where
  | UnknownFilter (name : String)
  | InvalidFunctionArguments (name : String)

/-- Runtime error taxonomy (`parse_grok::Error` as used by this file):
the filter display name and the textual rendering of the value. -/
inductive GrokRuntimeError where
  | FailedToApplyFilter (filterDisplay valueDisplay : String)

mutual
/-- A parsed filter invocation (`ast::Function`): a name and an optional
argument list. -/
inductive Function where
  | mk (name : String) (args : Option (List FunctionArgument))
/-- One argument of a filter invocation (`ast::FunctionArgument`):
a literal value or a nested invocation. -/
inductive FunctionArgument where
  | Arg (v : Value)
  | Function (f : Function)
end

/-- Opaque descriptor of the external date matcher
(`matchers::date::DateFilter`); carried but never inspected here. -/
structure DateFilter where
  fmt : String

/-- The compiled filter descriptor (`GrokFilter` in the source). The
`Box` indirection of the `Array` variant is dropped, keeping the
`Option` of a nested element filter. -/
inductive GrokFilter where
  | Date (df : DateFilter)
  | Integer
  | IntegerExt
  | Number
  | NumberExt
  | NullIf (s : String)
  | Scale (k : F64)
  | Lowercase
  | Uppercase
  | Json
  | Array (brackets : Option (Char × Char)) (delimiter : Option String)
      (vf : Option GrokFilter)

/-- The strum-derived `Display` of `GrokFilter`: the bare variant name. -/
def GrokFilter.display : GrokFilter → String
  | .Date _ => "Date"
  | .Integer => "Integer"
  | .IntegerExt => "IntegerExt"
  | .Number => "Number"
  | .NumberExt => "NumberExt"
  | .NullIf _ => "NullIf"
  | .Scale _ => "Scale"
  | .Lowercase => "Lowercase"
  | .Uppercase => "Uppercase"
  | .Json => "Json"
  | .Array _ _ _ => "Array"

/-- Value of a list of decimal digit characters. -/
def digitsToNat (l : List Char) : Nat :=
  l.foldl (fun a c => a * 10 + (c.toNat - 48)) 0

/-- Modelled from the spec: the strict signed 64-bit textual parse that
the `integer` filter delegates to (Rust `str::parse::<i64>`): an
optional sign followed by one or more decimal digits, whole-string,
range-checked. -/
def parseI64Digits (sgn : Int) (d : List Char) : Option Int :=
  if d ≠ [] ∧ d.all Char.isDigit then
    if -(2 ^ 63) ≤ sgn * (digitsToNat d : Int) ∧
        sgn * (digitsToNat d : Int) ≤ 2 ^ 63 - 1 then
      some (sgn * (digitsToNat d : Int))
    else none
  else none

/-- Modelled from the spec: strict signed 64-bit textual parsing
(sign handling of Rust `str::parse::<i64>`). -/
def parseI64 (s : String) : Option Int :=
  match s.data with
  | [] => none
  | c :: r =>
    if c = '+' then parseI64Digits 1 r
    else if c = '-' then parseI64Digits (-1) r
    else parseI64Digits 1 (c :: r)

/-- Modelled from the spec: the mantissa part of a 64-bit float literal
(Rust `str::parse::<f64>` grammar): digits, or digits around a single
dot with at least one digit present. -/
def parseMantissa (l : List Char) : Option ℚ :=
  match l.findIdx? (fun c => c == '.') with
  | none =>
    if l ≠ [] ∧ l.all Char.isDigit then some (digitsToNat l : ℚ) else none
  | some i =>
    if (l.take i ≠ [] ∨ l.drop (i + 1) ≠ []) ∧
        (l.take i).all Char.isDigit ∧ (l.drop (i + 1)).all Char.isDigit then
      some ((digitsToNat (l.take i) : ℚ) +
        (digitsToNat (l.drop (i + 1)) : ℚ) / (10 ^ (l.drop (i + 1)).length : ℚ))
    else none

/-- Modelled from the spec: the exponent part of a float literal: an
optional sign followed by one or more digits. -/
def parseExp (l : List Char) : Option Int :=
  match l with
  | [] => none
  | c :: r =>
    if c = '+' then
      if r ≠ [] ∧ r.all Char.isDigit then some (digitsToNat r : Int) else none
    else if c = '-' then
      if r ≠ [] ∧ r.all Char.isDigit then some (-(digitsToNat r : Int)) else none
    else if (c :: r).all Char.isDigit then some (digitsToNat (c :: r) : Int)
    else none

/-- Ten to an integer power, as a rational. -/
def powTenQ (e : Int) : ℚ :=
  if 0 ≤ e then (10 : ℚ) ^ e.toNat else 1 / (10 : ℚ) ^ (-e).toNat

/-- Modelled from the spec: 64-bit float parsing with scientific
notation (Rust `str::parse::<f64>`): an optional sign, then a
case-insensitive nan or infinity keyword, or a mantissa with an optional
exponent. Values are kept exact; rounding is not modelled. -/
def parseF64 (s : String) : Option F64 :=
  match s.data with
  | [] => none
  | c0 :: r0 =>
    let neg := c0 = '-'
    let rest := if c0 = '+' ∨ c0 = '-' then r0 else c0 :: r0
    let low := rest.map Char.toLower
    if low = ['n', 'a', 'n'] then some .nan
    else if low = ['i', 'n', 'f'] ∨ low = ['i', 'n', 'f', 'i', 'n', 'i', 't', 'y'] then
      some (.inf neg)
    else
      match rest.findIdx? (fun c => c == 'e' || c == 'E') with
      | none =>
        (parseMantissa rest).map (fun q => .finite (if neg then -q else q))
      | some i =>
        match parseMantissa (rest.take i), parseExp (rest.drop (i + 1)) with
        | some m, some e => some (.finite ((if neg then -m else m) * powTenQ e))
        | _, _ => none

/-- Embedding of the bracket-literal decoding inside the `array` branch
of `TryFrom` (grok_filter.rs:128-141). The scrutinized length is the
byte length of the literal (Rust `String::len`); the extracted
characters come from `chars()`. `none` models the `unwrap` panic that
fires when the literal holds fewer characters than its byte length,
`some (.error ())` the `InvalidFunctionArguments` fall-through. -/
def decodeBrackets (b : String) : Option (Except Unit (Char × Char)) :=
  if b.utf8ByteSize = 1 then
    match b.data with
    | c :: _ => some (.ok (c, c))
    | [] => none
  else if b.utf8ByteSize = 2 then
    match b.data with
    | c1 :: c2 :: _ => some (.ok (c1, c2))
    | _ => none
  else some (.error ())

/-- Embedding of `impl TryFrom<&Function> for GrokFilter`
(grok_filter.rs:35-152), the filter compiler. `none` models a panic
(the unchecked `args[0]` of the `nullIf` branch, the `unwrap`s of the
bracket decoding); `some` carries the compile result. -/
def tryFrom : Function → Option (Except GrokStaticError GrokFilter)
  | .mk name args =>
    match name with
    | "scale" =>
      match args with
      | some (a :: _) =>
        match a with
        | .Arg (.Integer n) => some (.ok (.Scale (intToF64 n)))
        | .Arg (.Float x) => some (.ok (.Scale x))
        | _ => some (.error (.InvalidFunctionArguments "scale"))
      | _ => some (.error (.InvalidFunctionArguments "scale"))
    | "integer" => some (.ok .Integer)
    | "integerExt" => some (.ok .IntegerExt)
    | "number" => some (.ok .Number)
    | "numberExt" => some (.ok .NumberExt)
    | "lowercase" => some (.ok .Lowercase)
    | "uppercase" => some (.ok .Uppercase)
    | "json" => some (.ok .Json)
    | "nullIf" =>
      match args with
      | none => some (.error (.InvalidFunctionArguments "nullIf"))
      | some [] => none
      | some (.Arg (.Bytes s) :: _) => some (.ok (.NullIf s))
      | some (_ :: _) => some (.error (.InvalidFunctionArguments "nullIf"))
    | "array" =>
      match args with
      | none => some (.ok (.Array none none none))
      | some [] => some (.ok (.Array none none none))
      | some [a] =>
        match a with
        | .Arg (.Bytes s) => some (.ok (.Array none (some s) none))
        | .Function g =>
          match tryFrom g with
          | none => none
          | some (.error e) => some (.error e)
          | some (.ok fl) => some (.ok (.Array none none (some fl)))
        | .Arg _ => some (.error (.InvalidFunctionArguments "array"))
      | some [a, b] =>
        match a, b with
        | .Arg (.Bytes bs), .Arg (.Bytes ds) =>
          match decodeBrackets bs with
          | none => none
          | some (.error _) => some (.error (.InvalidFunctionArguments "array"))
          | some (.ok p) => some (.ok (.Array (some p) (some ds) none))
        | .Arg (.Bytes ds), .Function g =>
          match tryFrom g with
          | none => none
          | some (.error e) => some (.error e)
          | some (.ok fl) => some (.ok (.Array none (some ds) (some fl)))
        | _, _ => some (.error (.InvalidFunctionArguments "array"))
      | some [a, b, c] =>
        match a, b, c with
        | .Arg (.Bytes bs), .Arg (.Bytes ds), .Function g =>
          match tryFrom g with
          | none => none
          | some (.error e) => some (.error e)
          | some (.ok fl) =>
            match decodeBrackets bs with
            | none => none
            | some (.error _) => some (.error (.InvalidFunctionArguments "array"))
            | some (.ok p) => some (.ok (.Array (some p) (some ds) (some fl)))
        | _, _, _ => some (.error (.InvalidFunctionArguments "array"))
      | some (_ :: _ :: _ :: _ :: _) =>
        some (.error (.InvalidFunctionArguments "array"))
    | _ => some (.error (.UnknownFilter name))

/-- The three external stateless collaborators of the application
engine, kept abstract: the date matcher, the JSON decoder (decoding
composed with the conversion into `Value`), and the delimited-array
tokenizer (`filters::array::parse`; `none` is a tokenize error). -/
structure Externals where
  matchDate : Value → DateFilter → Except GrokRuntimeError Value
  jsonDecode : String → Option Value
  arrayParse : String → Option (Char × Char) → Option String → Option (List Value)

/-- Embedding of `values.iter().map(..).collect::<Result<Vec<_>, _>>()`
over the element filter (grok_filter.rs:263-268): fail-fast left-to-right
traversal, short-circuiting on the first error (or panic). -/
def traverseVals (g : Value → Option (Except GrokRuntimeError Value)) :
    List Value → Option (Except GrokRuntimeError (List Value))
  | [] => some (.ok [])
  | v :: vs =>
    match g v with
    | none => none
    | some (.error e) => some (.error e)
    | some (.ok r) =>
      match traverseVals g vs with
      | none => none
      | some (.error e) => some (.error e)
      | some (.ok rs) => some (.ok (r :: rs))

/-- Embedding of `apply_filter(value, filter)` (grok_filter.rs:156-279).
The filter argument comes first so that the recursion through the
element filter of `Array` is structural; `none` models a panic (the
`expect("NaN")` calls of the `Scale` branch and the NaN-rejecting float
construction of the `Number`/`NumberExt` branches). -/
def applyFilter (ext : Externals) : GrokFilter → Value → Option (Except GrokRuntimeError Value)
  | .Integer => fun value =>
    match value with
    | .Bytes s =>
      match parseI64 s with
      | some n => some (.ok (.Integer n))
      | none => some (.error (.FailedToApplyFilter "Integer" (valueDisplay (.Bytes s))))
    | _ => some (.error (.FailedToApplyFilter "Integer" (valueDisplay value)))
  | .IntegerExt => fun value =>
    match value with
    | .Bytes s =>
      match parseF64 s with
      | some f => some (.ok (.Integer (f64toI64 f)))
      | none => some (.error (.FailedToApplyFilter "IntegerExt" (valueDisplay (.Bytes s))))
    | _ => some (.error (.FailedToApplyFilter "IntegerExt" (valueDisplay value)))
  | .Number => fun value =>
    match value with
    | .Bytes s =>
      match parseF64 s with
      | some .nan => none
      | some (.inf b) => some (.ok (.Float (.inf b)))
      | some (.finite q) => some (.ok (.Float (.finite q)))
      | none => some (.error (.FailedToApplyFilter "Number" (valueDisplay (.Bytes s))))
    | _ => some (.error (.FailedToApplyFilter "Number" (valueDisplay value)))
  | .NumberExt => fun value =>
    match value with
    | .Bytes s =>
      match parseF64 s with
      | some .nan => none
      | some (.inf b) => some (.ok (.Float (.inf b)))
      | some (.finite q) => some (.ok (.Float (.finite q)))
      | none => some (.error (.FailedToApplyFilter "NumberExt" (valueDisplay (.Bytes s))))
    | _ => some (.error (.FailedToApplyFilter "NumberExt" (valueDisplay value)))
  | .Scale k => fun value =>
    match value with
    | .Integer n =>
      match notNanNew (fmul (intToF64 n) k) with
      | none => none
      | some r => some (.ok (.Float r))
    | .Float f =>
      match notNanNew (fmul f k) with
      | none => none
      | some r => some (.ok (.Float r))
    | .Bytes s =>
      match parseF64 s with
      | none => some (.error (.FailedToApplyFilter "Scale" (valueDisplay (.Bytes s))))
      | some f =>
        match notNanNew (fmul f k) with
        | none => none
        | some r => some (.ok (.Float r))
    | _ => some (.error (.FailedToApplyFilter "Scale" (valueDisplay value)))
  | .Lowercase => fun value =>
    match value with
    | .Bytes s => some (.ok (.Bytes s.toLower))
    | _ => some (.error (.FailedToApplyFilter "Lowercase" (valueDisplay value)))
  | .Uppercase => fun value =>
    match value with
    | .Bytes s => some (.ok (.Bytes s.toUpper))
    | _ => some (.error (.FailedToApplyFilter "Uppercase" (valueDisplay value)))
  | .Json => fun value =>
    match value with
    | .Bytes s =>
      match ext.jsonDecode s with
      | some v => some (.ok v)
      | none => some (.error (.FailedToApplyFilter "Json" (valueDisplay (.Bytes s))))
    | _ => some (.error (.FailedToApplyFilter "Json" (valueDisplay value)))
  | .NullIf sentinel => fun value =>
    match value with
    | .Bytes s => if s = sentinel then some (.ok .Null) else some (.ok (.Bytes s))
    | _ => some (.error (.FailedToApplyFilter "NullIf" (valueDisplay value)))
  | .Date df => fun value => some (ext.matchDate value df)
  | .Array br dl (some fl) => fun value =>
    match value with
    | .Bytes s =>
      match ext.arrayParse s br dl with
      | none => some (.error (.FailedToApplyFilter "Array" (valueDisplay (.Bytes s))))
      | some tokens =>
        match traverseVals (applyFilter ext fl) tokens with
        | none => none
        | some (.error e) => some (.error e)
        | some (.ok rs) => some (.ok (.Array rs))
    | _ => some (.error (.FailedToApplyFilter "Array" (valueDisplay value)))
  | .Array br dl none => fun value =>
    match value with
    | .Bytes s =>
      match ext.arrayParse s br dl with
      | none => some (.error (.FailedToApplyFilter "Array" (valueDisplay (.Bytes s))))
      | some tokens => some (.ok (.Array tokens))
    | _ => some (.error (.FailedToApplyFilter "Array" (valueDisplay value)))

/-- Helper of the modelled tokenizer: one splitting step per unit of
fuel. -/
def splitFuel (delim : List Char) : Nat → List Char → List Char → List (List Char)
  | _, [], acc => [acc.reverse]
  | 0, l, acc => [acc.reverse ++ l]
  | n + 1, c :: rest, acc =>
    if delim.isPrefixOf (c :: rest) then
      acc.reverse :: splitFuel delim n (List.drop delim.length (c :: rest)) []
    else
      splitFuel delim n rest (c :: acc)

/-- Splitting a character list on a non-empty delimiter, written with a
length fuel so that it is structurally recursive and evaluates inside
the kernel. -/
def splitOnDelim (delim l : List Char) : List (List Char) :=
  splitFuel delim (l.length + 1) l []

/-- Modelled from the spec: the external delimited-array tokenizer
(`filters::array::parse`): when brackets are given the text must be
wrapped by them and they are stripped, the delimiter defaults when
absent, and the pieces come back as byte-string values. Only used to
instantiate `Externals` for concrete evaluations; the theorems about
the array filter are conditional on the tokenizer output. -/
def specTokenize (s : String) (brackets : Option (Char × Char))
    (delimiter : Option String) : Option (List Value) :=
  let inner : Option String :=
    match brackets with
    | none => some s
    | some (o, c) =>
      match s.data with
      | [] => none
      | x :: rest =>
        if x = o ∧ rest.getLast? = some c then some (String.mk rest.dropLast)
        else none
  match inner with
  | none => none
  | some t =>
    some ((splitOnDelim (delimiter.getD ",").data t.data).map
      (fun cs => Value.Bytes (String.mk cs)))

/-- A concrete instantiation of the external collaborators, used by the
closed witnesses: the tokenizer is `specTokenize`; the date matcher and
the JSON decoder are trivial placeholders, exercised by no claim. -/
def specExt : Externals where
  matchDate := fun v _ => Except.ok v
  jsonDecode := fun _ => none
  arrayParse := specTokenize

/-! ## Helper lemmas -/

theorem traverseVals_map_ok (g : Value → Option (Except GrokRuntimeError Value))
    (f : Value → Value) (l : List Value)
    (h : ∀ v ∈ l, g v = some (.ok (f v))) :
    traverseVals g l = some (.ok (l.map f)) := by
  induction l with
  | nil => rfl
  | cons v vs ih =>
    have hv : g v = some (.ok (f v)) := h v (by simp)
    have hrest := ih (fun u hu => h u (by simp [hu]))
    simp [traverseVals, hv, hrest]

theorem traverseVals_first_error (g : Value → Option (Except GrokRuntimeError Value))
    (pre : List Value) (v : Value) (post : List Value) (e : GrokRuntimeError)
    (hpre : ∀ u ∈ pre, ∃ r, g u = some (.ok r))
    (hv : g v = some (.error e)) :
    traverseVals g (pre ++ v :: post) = some (.error e) := by
  induction pre with
  | nil => simp [traverseVals, hv]
  | cons u us ih =>
    obtain ⟨r, hr⟩ := hpre u (by simp)
    have hrest := ih (fun w hw => hpre w (by simp [hw]))
    simp [traverseVals, hr, hrest]

theorem parseI64Digits_none_of_bad (sgn : Int) (d : List Char) (c : Char)
    (hc : c ∈ d) (hnd : c.isDigit = false) :
    parseI64Digits sgn d = none := by
  unfold parseI64Digits
  split
  · rename_i h
    exact absurd (List.all_eq_true.mp h.2 c hc) (by simp [hnd])
  · rfl

theorem parseI64Digits_range (sgn : Int) (d : List Char) (n : Int)
    (h : parseI64Digits sgn d = some n) :
    -(2 ^ 63) ≤ n ∧ n ≤ 2 ^ 63 - 1 := by
  unfold parseI64Digits at h
  split at h
  · split at h
    · rename_i hrange
      cases h
      exact hrange
    · exact absurd h (by simp)
  · exact absurd h (by simp)

theorem parseI64_cons (c0 : Char) (r : List Char) (s : String) (hs : s.data = c0 :: r) :
    parseI64 s =
      if c0 = '+' then parseI64Digits 1 r
      else if c0 = '-' then parseI64Digits (-1) r
      else parseI64Digits 1 (c0 :: r) := by
  unfold parseI64
  rw [hs]

/-- A function argument that is a byte-string literal. -/
def isBytesArg (a : FunctionArgument) : Prop := ∃ s, a = .Arg (.Bytes s)

/-- A function argument that is a nested invocation. -/
def isFunctionArg (a : FunctionArgument) : Prop := ∃ g, a = .Function g

theorem tryFrom_array_nested_one (g : Function) :
    tryFrom (.mk "array" (some [.Function g])) =
      match tryFrom g with
      | none => none
      | some (.error e) => some (.error e)
      | some (.ok fl) => some (.ok (.Array none none (some fl))) := rfl

theorem tryFrom_array_delim_nested (ds : String) (g : Function) :
    tryFrom (.mk "array" (some [.Arg (.Bytes ds), .Function g])) =
      match tryFrom g with
      | none => none
      | some (.error e) => some (.error e)
      | some (.ok fl) => some (.ok (.Array none (some ds) (some fl))) := rfl

theorem tryFrom_array_two_bytes (bs ds : String) :
    tryFrom (.mk "array" (some [.Arg (.Bytes bs), .Arg (.Bytes ds)])) =
      match decodeBrackets bs with
      | none => none
      | some (.error _) => some (.error (.InvalidFunctionArguments "array"))
      | some (.ok p) => some (.ok (.Array (some p) (some ds) none)) := rfl

theorem tryFrom_array_three (bs ds : String) (g : Function) :
    tryFrom (.mk "array" (some [.Arg (.Bytes bs), .Arg (.Bytes ds), .Function g])) =
      match tryFrom g with
      | none => none
      | some (.error e) => some (.error e)
      | some (.ok fl) =>
        match decodeBrackets bs with
        | none => none
        | some (.error _) => some (.error (.InvalidFunctionArguments "array"))
        | some (.ok p) => some (.ok (.Array (some p) (some ds) (some fl))) := rfl

/-! ## Claims -/

/-- C1: compiling the filter named nullIf with a present-but-empty
argument list does NOT return a compile error: the source indexes
`args[0]` without a length check (grok_filter.rs:64), so the evaluation
is the out-of-bounds panic (`none` in the model), not an
`InvalidFunctionArguments` result. This settles the claim as a defect of
the code: the spec's stated intent (a compile error, no crash) is
contradicted by the unchecked access. -/
theorem nullIf_empty_args_indexing_panics :
    tryFrom (.mk "nullIf" (some [])) = none := rfl

/-- C9: bracket-literal decoding measures length in bytes while it
extracts characters. The one- and three-byte examples behave as the
claim states (symmetric pair, `InvalidArguments`), but a two-byte
literal made of a single two-byte character takes the length-2 branch
and panics on the second `chars().next().unwrap()`
(grok_filter.rs:133-136), so compiling such an array invocation crashes
instead of decoding or erroring. -/
theorem array_bracket_two_byte_single_char_panics :
    decodeBrackets "é" = none
  ∧ tryFrom (.mk "array" (some [.Arg (.Bytes "é"), .Arg (.Bytes ",")])) = none
  ∧ decodeBrackets "[" = some (.ok ('[', '['))
  ∧ decodeBrackets "\x7b[\x7d" = some (.error ()) :=
  ⟨rfl, rfl, rfl, rfl⟩

/-- C8 counterexample: compiling nullIf with TWO arguments whose first
is a byte-string literal succeeds (the source only ever looks at
`args[0]`), refuting the claim that any arity other than exactly one
yields a compile error. -/
theorem nullIf_second_argument_ignored :
    tryFrom (.mk "nullIf" (some [.Arg (.Bytes "a"), .Arg (.Bytes "b")])) =
      some (.ok (.NullIf "a")) := rfl

/-- C8 (amended): compiling nullIf succeeds with `NullIf(sentinel)`
exactly when the argument list is present, non-empty, and its FIRST
argument is a byte-string literal (any further arguments are ignored);
an absent argument list, or a present first argument that is not a
byte-string literal, yields a compile error naming the filter. (The
present-but-empty list panics; see C1.) -/
theorem nullIf_compile_first_argument_rule (s : String)
    (l : List FunctionArgument) (v : Value) :
    tryFrom (.mk "nullIf" none) = some (.error (.InvalidFunctionArguments "nullIf"))
  ∧ tryFrom (.mk "nullIf" (some (.Arg (.Bytes s) :: l))) = some (.ok (.NullIf s))
  ∧ ((∀ t, v ≠ .Bytes t) →
      tryFrom (.mk "nullIf" (some (.Arg v :: l))) =
        some (.error (.InvalidFunctionArguments "nullIf")))
  ∧ (∀ g, tryFrom (.mk "nullIf" (some (.Function g :: l))) =
      some (.error (.InvalidFunctionArguments "nullIf"))) := by
  refine ⟨rfl, rfl, ?_, fun g => rfl⟩
  intro h
  cases v with
  | Bytes t => exact absurd rfl (h t)
  | Null => rfl
  | Integer n => rfl
  | Float f => rfl
  | Boolean b => rfl
  | Array a => rfl
  | Map m => rfl

/-- C8 witness: the amended rule evaluated at a concrete non-byte-string
first argument. -/
theorem nullIf_compile_first_argument_rule_witness :
    tryFrom (.mk "nullIf" (some [.Arg Value.Null])) =
      some (.error (.InvalidFunctionArguments "nullIf")) :=
  (nullIf_compile_first_argument_rule "" [] Value.Null).2.2.1
    (fun _ h => Value.noConfusion h)

/-- C3: the argument shapes of the array filter compiler, resolved by
count then by type: zero arguments (absent or empty list) give the
all-default spec; one byte-string sets only the delimiter; one nested
invocation sets only the element filter (compiled recursively); any
other single argument errors; two byte-strings give (brackets,
delimiter) in that order (subject to bracket decoding); a byte-string
followed by a nested invocation gives (delimiter, elementFilter); any
other pair errors; three arguments must be (byte-string, byte-string,
nested invocation) giving (brackets, delimiter, elementFilter); any
other triple errors; more than three arguments errors. -/
theorem array_compile_argument_shapes :
    tryFrom (.mk "array" none) = some (.ok (.Array none none none))
  ∧ tryFrom (.mk "array" (some [])) = some (.ok (.Array none none none))
  ∧ (∀ s, tryFrom (.mk "array" (some [.Arg (.Bytes s)])) =
      some (.ok (.Array none (some s) none)))
  ∧ (∀ g fl, tryFrom g = some (.ok fl) →
      tryFrom (.mk "array" (some [.Function g])) =
        some (.ok (.Array none none (some fl))))
  ∧ (∀ v, (∀ s, v ≠ .Bytes s) →
      tryFrom (.mk "array" (some [.Arg v])) =
        some (.error (.InvalidFunctionArguments "array")))
  ∧ (∀ bs ds p, decodeBrackets bs = some (.ok p) →
      tryFrom (.mk "array" (some [.Arg (.Bytes bs), .Arg (.Bytes ds)])) =
        some (.ok (.Array (some p) (some ds) none)))
  ∧ (∀ ds g fl, tryFrom g = some (.ok fl) →
      tryFrom (.mk "array" (some [.Arg (.Bytes ds), .Function g])) =
        some (.ok (.Array none (some ds) (some fl))))
  ∧ (∀ a b, ¬(isBytesArg a ∧ (isBytesArg b ∨ isFunctionArg b)) →
      tryFrom (.mk "array" (some [a, b])) =
        some (.error (.InvalidFunctionArguments "array")))
  ∧ (∀ bs ds g fl p, tryFrom g = some (.ok fl) → decodeBrackets bs = some (.ok p) →
      tryFrom (.mk "array" (some [.Arg (.Bytes bs), .Arg (.Bytes ds), .Function g])) =
        some (.ok (.Array (some p) (some ds) (some fl))))
  ∧ (∀ a b c, ¬(isBytesArg a ∧ isBytesArg b ∧ isFunctionArg c) →
      tryFrom (.mk "array" (some [a, b, c])) =
        some (.error (.InvalidFunctionArguments "array")))
  ∧ (∀ a b c d rest, tryFrom (.mk "array" (some (a :: b :: c :: d :: rest))) =
      some (.error (.InvalidFunctionArguments "array"))) := by
  refine ⟨rfl, rfl, fun s => rfl, ?_, ?_, ?_, ?_, ?_, ?_, ?_, fun a b c d rest => rfl⟩
  · intro g fl h
    rw [tryFrom_array_nested_one, h]
  · intro v h
    cases v with
    | Bytes t => exact absurd rfl (h t)
    | Null => rfl
    | Integer n => rfl
    | Float f => rfl
    | Boolean b => rfl
    | Array a => rfl
    | Map m => rfl
  · intro bs ds p h
    rw [tryFrom_array_two_bytes, h]
  · intro ds g fl h
    rw [tryFrom_array_delim_nested, h]
  · intro a b h
    cases a with
    | Function g => rfl
    | Arg v =>
      cases v with
      | Bytes bs =>
        cases b with
        | Function g => exact absurd ⟨⟨bs, rfl⟩, .inr ⟨g, rfl⟩⟩ h
        | Arg u =>
          cases u with
          | Bytes ds => exact absurd ⟨⟨bs, rfl⟩, .inl ⟨ds, rfl⟩⟩ h
          | Null => rfl
          | Integer n => rfl
          | Float f => rfl
          | Boolean x => rfl
          | Array a => rfl
          | Map m => rfl
      | Null => rfl
      | Integer n => rfl
      | Float f => rfl
      | Boolean x => rfl
      | Array l => rfl
      | Map m => rfl
  · intro bs ds g fl p hg hb
    rw [tryFrom_array_three, hg, hb]
  · intro a b c h
    cases a with
    | Function g => rfl
    | Arg v =>
      cases v with
      | Bytes bs =>
        cases b with
        | Function g => rfl
        | Arg u =>
          cases u with
          | Bytes ds =>
            cases c with
            | Function g => exact absurd ⟨⟨bs, rfl⟩, ⟨ds, rfl⟩, ⟨g, rfl⟩⟩ h
            | Arg w => rfl
          | Null => rfl
          | Integer n => rfl
          | Float f => rfl
          | Boolean x => rfl
          | Array a => rfl
          | Map m => rfl
      | Null => rfl
      | Integer n => rfl
      | Float f => rfl
      | Boolean x => rfl
      | Array l => rfl
      | Map m => rfl

/-- C3 witness: the three-argument shape evaluated at a concrete
invocation with a nested integer filter. -/
theorem array_compile_argument_shapes_witness :
    tryFrom (.mk "array"
        (some [.Arg (.Bytes "()"), .Arg (.Bytes ";"), .Function (.mk "integer" none)])) =
      some (.ok (.Array (some ('(', ')')) (some ";") (some .Integer))) :=
  array_compile_argument_shapes.2.2.2.2.2.2.2.2.1
    "()" ";" (.mk "integer" none) .Integer ('(', ')') rfl rfl

/-- C4: the NullIf filter maps a byte-string equal to the sentinel to
Null, returns any other byte-string unchanged (identity passthrough
under exact equality), fails on every non-byte-string value, and is
idempotent on non-matching byte-strings: the second application returns
the same value again. -/
theorem nullIf_apply_semantics (ext : Externals) (sentinel s : String) (v : Value) :
    applyFilter ext (.NullIf sentinel) (.Bytes sentinel) = some (.ok .Null)
  ∧ (s ≠ sentinel →
      applyFilter ext (.NullIf sentinel) (.Bytes s) = some (.ok (.Bytes s)))
  ∧ ((∀ t, v ≠ .Bytes t) →
      applyFilter ext (.NullIf sentinel) v =
        some (.error (.FailedToApplyFilter "NullIf" (valueDisplay v))))
  ∧ (s ≠ sentinel →
      ∃ r, applyFilter ext (.NullIf sentinel) (.Bytes s) = some (.ok r) ∧
        applyFilter ext (.NullIf sentinel) r = some (.ok r)) := by
  refine ⟨by simp [applyFilter], ?_, ?_, ?_⟩
  · intro h
    simp [applyFilter, h]
  · intro h
    cases v with
    | Bytes t => exact absurd rfl (h t)
    | Null => rfl
    | Integer n => rfl
    | Float f => rfl
    | Boolean b => rfl
    | Array a => rfl
    | Map m => rfl
  · intro h
    exact ⟨.Bytes s, by simp [applyFilter, h], by simp [applyFilter, h]⟩

/-- C4 witness: a concrete non-matching byte-string passes through
unchanged. -/
theorem nullIf_apply_semantics_witness :
    applyFilter specExt (.NullIf "-") (.Bytes "x") = some (.ok (.Bytes "x")) :=
  (nullIf_apply_semantics specExt "-" "x" Value.Null).2.1 (by decide)

/-- C5: on every runtime value the Number and NumberExt filters behave
identically: they either succeed with the same value, fail with the same
value rendering (differing only in the filter display name carried by
the error), or panic together (the NaN-parse case). -/
theorem number_numberExt_behavior_identical (ext : Externals) (v : Value) :
    (∃ r, applyFilter ext .Number v = some (.ok r) ∧
        applyFilter ext .NumberExt v = some (.ok r))
  ∨ (∃ d, applyFilter ext .Number v = some (.error (.FailedToApplyFilter "Number" d)) ∧
      applyFilter ext .NumberExt v = some (.error (.FailedToApplyFilter "NumberExt" d)))
  ∨ (applyFilter ext .Number v = none ∧ applyFilter ext .NumberExt v = none) := by
  cases v with
  | Bytes s =>
    cases hp : parseF64 s with
    | none =>
      exact .inr (.inl ⟨valueDisplay (.Bytes s),
        by simp [applyFilter, hp], by simp [applyFilter, hp]⟩)
    | some f =>
      cases f with
      | nan => exact .inr (.inr ⟨by simp [applyFilter, hp], by simp [applyFilter, hp]⟩)
      | inf b =>
        exact .inl ⟨.Float (.inf b), by simp [applyFilter, hp], by simp [applyFilter, hp]⟩
      | finite q =>
        exact .inl ⟨.Float (.finite q),
          by simp [applyFilter, hp], by simp [applyFilter, hp]⟩
  | Null => exact .inr (.inl ⟨valueDisplay .Null, rfl, rfl⟩)
  | Integer n => exact .inr (.inl ⟨valueDisplay (.Integer n), rfl, rfl⟩)
  | Float f => exact .inr (.inl ⟨valueDisplay (.Float f), rfl, rfl⟩)
  | Boolean b => exact .inr (.inl ⟨valueDisplay (.Boolean b), rfl, rfl⟩)
  | Array a => exact .inr (.inl ⟨valueDisplay (.Array a), rfl, rfl⟩)
  | Map m => exact .inr (.inl ⟨valueDisplay (.Map m), rfl, rfl⟩)

/-- C6: scaling a finite float by a finite factor never trips the NaN
invariant of the Scale branch (the product of two finite idealized
floats is finite, hence not NaN, so the modelled `expect("NaN")` cannot
panic) and completes with the Float product. -/
theorem scale_finite_product_not_nan (ext : Externals) (f k : ℚ) :
    fmul (.finite f) (.finite k) ≠ F64.nan
  ∧ applyFilter ext (.Scale (.finite k)) (.Float (.finite f)) =
      some (.ok (.Float (.finite (f * k)))) := by
  refine ⟨by simp [fmul], ?_⟩
  simp [applyFilter, fmul, notNanNew]

/-- C7: the Integer filter performs strict signed 64-bit textual
parsing of a byte-string: success yields exactly the parsed integer
(which is always in signed 64-bit range); any parse failure, and any
non-byte-string input, yields a FailedToApplyFilter error carrying the
filter display name and the value rendering. The parse is whole-string
(any character that is neither a digit nor a sign makes it fail, so
scientific notation such as 1e3 and plain text such as abc fail). -/
theorem integer_filter_strict_parse (ext : Externals) (s : String) (v : Value) (n : Int) :
    (parseI64 s = some n →
      applyFilter ext .Integer (.Bytes s) = some (.ok (.Integer n)))
  ∧ (parseI64 s = none →
      applyFilter ext .Integer (.Bytes s) =
        some (.error (.FailedToApplyFilter (GrokFilter.display .Integer)
          (valueDisplay (.Bytes s)))))
  ∧ ((∀ t, v ≠ .Bytes t) →
      applyFilter ext .Integer v =
        some (.error (.FailedToApplyFilter (GrokFilter.display .Integer)
          (valueDisplay v))))
  ∧ (parseI64 s = some n → -(2 ^ 63) ≤ n ∧ n ≤ 2 ^ 63 - 1)
  ∧ ((∃ c ∈ s.data, c.isDigit = false ∧ c ≠ '+' ∧ c ≠ '-') → parseI64 s = none)
  ∧ parseI64 "1e3" = none ∧ parseI64 "abc" = none := by
  refine ⟨?_, ?_, ?_, ?_, ?_, rfl, rfl⟩
  · intro h
    simp [applyFilter, h]
  · intro h
    simp [applyFilter, h, GrokFilter.display]
  · intro h
    cases v with
    | Bytes t => exact absurd rfl (h t)
    | Null => rfl
    | Integer m => rfl
    | Float f => rfl
    | Boolean b => rfl
    | Array a => rfl
    | Map m => rfl
  · intro h
    unfold parseI64 at h
    split at h
    · exact absurd h (by simp)
    · split_ifs at h <;> exact parseI64Digits_range _ _ _ h
  · rintro ⟨c, hc, hnd, hnp, hnm⟩
    cases hs : s.data with
    | nil => unfold parseI64; rw [hs]
    | cons c0 r =>
      rw [parseI64_cons c0 r s hs]
      have hcc : c ∈ c0 :: r := by rw [← hs]; exact hc
      by_cases h0 : c0 = '+'
      · rw [if_pos h0]
        have hcr : c ∈ r := by
          rcases List.mem_cons.mp hcc with h | h
          · exact absurd (h.trans h0) hnp
          · exact h
        exact parseI64Digits_none_of_bad 1 r c hcr hnd
      · rw [if_neg h0]
        by_cases h1 : c0 = '-'
        · rw [if_pos h1]
          have hcr : c ∈ r := by
            rcases List.mem_cons.mp hcc with h | h
            · exact absurd (h.trans h1) hnm
            · exact h
          exact parseI64Digits_none_of_bad (-1) r c hcr hnd
        · rw [if_neg h1]
          exact parseI64Digits_none_of_bad 1 (c0 :: r) c hcc hnd

/-- C7 witness: a concrete in-range decimal byte-string parses to the
corresponding integer. -/
theorem integer_filter_strict_parse_witness :
    applyFilter specExt .Integer (.Bytes "42") = some (.ok (.Integer 42)) :=
  (integer_filter_strict_parse specExt "42" Value.Null 42).1 rfl

/-- C10: the IntegerExt filter never fails on a byte-string that parses
as a 64-bit float: the parsed float is cast with saturation (a truncated
value above the signed 64-bit maximum saturates to the maximum, one
below the minimum saturates to the minimum, NaN — e.g. the byte-string
nan — casts to 0); only a float-parse failure or a non-byte-string
input produces a runtime failure. -/
theorem integerExt_saturating_cast (ext : Externals) (s : String) (q : ℚ) (v : Value) :
    (∀ f, parseF64 s = some f →
      applyFilter ext .IntegerExt (.Bytes s) = some (.ok (.Integer (f64toI64 f))))
  ∧ (parseF64 s = some (.finite q) → 2 ^ 63 - 1 < ratTrunc q →
      applyFilter ext .IntegerExt (.Bytes s) = some (.ok (.Integer (2 ^ 63 - 1))))
  ∧ (parseF64 s = some (.finite q) → ratTrunc q < -(2 ^ 63) →
      applyFilter ext .IntegerExt (.Bytes s) = some (.ok (.Integer (-(2 ^ 63)))))
  ∧ (parseF64 s = some .nan →
      applyFilter ext .IntegerExt (.Bytes s) = some (.ok (.Integer 0)))
  ∧ parseF64 "nan" = some .nan
  ∧ (parseF64 s = none →
      applyFilter ext .IntegerExt (.Bytes s) =
        some (.error (.FailedToApplyFilter (GrokFilter.display .IntegerExt)
          (valueDisplay (.Bytes s)))))
  ∧ ((∀ t, v ≠ .Bytes t) →
      applyFilter ext .IntegerExt v =
        some (.error (.FailedToApplyFilter (GrokFilter.display .IntegerExt)
          (valueDisplay v)))) := by
  refine ⟨?_, ?_, ?_, ?_, rfl, ?_, ?_⟩
  · intro f h
    simp [applyFilter, h]
  · intro h hgt
    have hv : f64toI64 (.finite q) = 2 ^ 63 - 1 := by
      simp only [f64toI64]
      rw [if_pos hgt]
    simp [applyFilter, h, hv]
  · intro h hlt
    have hn : ¬(2 ^ 63 - 1 < ratTrunc q) := by omega
    have hv : f64toI64 (.finite q) = -(2 ^ 63) := by
      simp only [f64toI64]
      rw [if_neg hn, if_pos hlt]
    simp [applyFilter, h, hv]
  · intro h
    simp [applyFilter, h, f64toI64]
  · intro h
    simp [applyFilter, h, GrokFilter.display]
  · intro h
    cases v with
    | Bytes t => exact absurd rfl (h t)
    | Null => rfl
    | Integer m => rfl
    | Float f => rfl
    | Boolean b => rfl
    | Array a => rfl
    | Map m => rfl

/-- C10 witness: the byte-string nan parses to NaN and casts to the
integer 0. -/
theorem integerExt_saturating_cast_witness :
    applyFilter specExt .IntegerExt (.Bytes "nan") = some (.ok (.Integer 0)) :=
  (integerExt_saturating_cast specExt "nan" 0 Value.Null).2.2.2.1 rfl

/-- C2: for an Array spec whose tokenizer output on the given
byte-string is the token list, the element filter (when present) is
applied to every token in original order: if every element application
succeeds the result is the Array of the transformed tokens in original
order; if any element application fails, the whole application fails
with the error of the first failing token in original order and no
partial Array is produced; when the element filter is absent the raw
tokens come back as an Array unchanged. -/
theorem array_apply_element_filter_semantics (ext : Externals) (s : String)
    (br : Option (Char × Char)) (dl : Option String) (tokens : List Value)
    (fl : GrokFilter)
    (htok : ext.arrayParse s br dl = some tokens) :
    (∀ f : Value → Value,
      (∀ v ∈ tokens, applyFilter ext fl v = some (.ok (f v))) →
      applyFilter ext (.Array br dl (some fl)) (.Bytes s) =
        some (.ok (.Array (tokens.map f))))
  ∧ (∀ pre v post e, tokens = pre ++ v :: post →
      (∀ u ∈ pre, ∃ r, applyFilter ext fl u = some (.ok r)) →
      applyFilter ext fl v = some (.error e) →
      applyFilter ext (.Array br dl (some fl)) (.Bytes s) = some (.error e))
  ∧ applyFilter ext (.Array br dl none) (.Bytes s) = some (.ok (.Array tokens)) := by
  refine ⟨?_, ?_, ?_⟩
  · intro f h
    simp [applyFilter, htok, traverseVals_map_ok (applyFilter ext fl) f tokens h]
  · intro pre v post e hd hpre hv
    subst hd
    simp [applyFilter, htok,
      traverseVals_first_error (applyFilter ext fl) pre v post e hpre hv]
  · simp [applyFilter, htok]

/-- C2 witness: the default tokenizer splits a concrete byte-string and
the raw tokens come back unchanged when no element filter is present. -/
theorem array_apply_element_filter_semantics_witness :
    applyFilter specExt (.Array none none none) (.Bytes "1,2") =
      some (.ok (.Array [.Bytes "1", .Bytes "2"])) :=
  (array_apply_element_filter_semantics specExt "1,2" none none
    [.Bytes "1", .Bytes "2"] .Integer rfl).2.2
